import Mathlib

/-
Shallow embedding of the agentic-loop runtime (event_queue.py, registry.py,
main.py) and proofs about its specified properties.
-/

namespace AgenticLoop

/-! ## Event queue (event_queue.py)

`AgentEvent` is a dataclass with `order=True` where only `priority` takes part
in comparisons.  `EventQueue` wraps a `queue.PriorityQueue`; `put` inserts and
`get_all_pending` repeatedly calls `get_nowait` (which removes a minimal
element with respect to the dataclass order, i.e. minimal `priority`) until the
queue is empty.  We model the heap contents as a list and `get_nowait` as
removal of the first element of minimal priority. -/

structure AgentEvent where
  priority : Int
  source : String
  event_type : String
  payload : String
  timestamp : String
deriving Repr, DecidableEq

/-- One `get_nowait` on a nonempty heap holding `e :: l`: returns a minimal
element and the remaining contents. -/
def popMin (e : AgentEvent) (l : List AgentEvent) : AgentEvent × List AgentEvent :=
  match l with
  | [] => (e, [])
  | x :: xs =>
    if e.priority ≤ x.priority then
      ((popMin e xs).1, x :: (popMin e xs).2)
    else
      ((popMin x xs).1, e :: (popMin x xs).2)

theorem popMin_length (e : AgentEvent) (l : List AgentEvent) :
    (popMin e l).2.length = l.length := by
  induction l generalizing e with
  | nil => rfl
  | cons x xs ih =>
    simp only [popMin]
    split <;> simp [ih]

theorem popMin_perm (e : AgentEvent) (l : List AgentEvent) :
    List.Perm ((popMin e l).1 :: (popMin e l).2) (e :: l) := by
  induction l generalizing e with
  | nil => rfl
  | cons x xs ih =>
    simp only [popMin]
    split
    · exact ((List.Perm.swap _ _ _).trans ((ih e).cons x)).trans (List.Perm.swap e x xs)
    · exact (List.Perm.swap _ _ _).trans ((ih x).cons e)

theorem popMin_min (e : AgentEvent) (l : List AgentEvent) :
    ∀ y ∈ e :: l, (popMin e l).1.priority ≤ y.priority := by
  induction l generalizing e with
  | nil => intro y hy; simp at hy; simp [popMin, hy]
  | cons x xs ih =>
    intro y hy
    simp only [popMin]
    split
    · rename_i hle
      simp only [List.mem_cons] at hy
      rcases hy with h | h | h
      · exact ih e y (by simp [h])
      · exact le_trans (ih e e (by simp)) (h ▸ hle)
      · exact ih e y (by simp [h])
    · rename_i hgt
      push_neg at hgt
      simp only [List.mem_cons] at hy
      rcases hy with h | h | h
      · exact le_trans (ih x x (by simp)) (h ▸ le_of_lt hgt)
      · exact ih x y (by simp [h])
      · exact ih x y (by simp [h])

/-- Repeated `get_nowait` until `queue.Empty`: the order in which a full drain
returns the queued events. -/
def drainAll : List AgentEvent → List AgentEvent
  | [] => []
  | e :: l =>
    (popMin e l).1 :: drainAll (popMin e l).2
termination_by l => l.length
decreasing_by simp [popMin_length]

theorem drainAll_perm_aux : ∀ (n : Nat) (l : List AgentEvent), l.length ≤ n →
    List.Perm (drainAll l) l := by
  intro n
  induction n with
  | zero =>
    intro l h
    match l with
    | [] => simp [drainAll]
  | succ n ih =>
    intro l h
    match l with
    | [] => simp [drainAll]
    | e :: l =>
      rw [drainAll]
      refine List.Perm.trans ?_ (popMin_perm e l)
      refine List.Perm.cons _ (ih _ ?_)
      rw [popMin_length]
      simpa using h

theorem drainAll_perm (l : List AgentEvent) : List.Perm (drainAll l) l :=
  drainAll_perm_aux l.length l le_rfl

theorem drainAll_sorted_aux : ∀ (n : Nat) (l : List AgentEvent), l.length ≤ n →
    (drainAll l).Pairwise (fun a b => a.priority ≤ b.priority) := by
  intro n
  induction n with
  | zero =>
    intro l h
    match l with
    | [] => simp [drainAll]
  | succ n ih =>
    intro l h
    match l with
    | [] => simp [drainAll]
    | e :: l =>
      rw [drainAll]
      refine List.Pairwise.cons ?_ (ih _ (by rw [popMin_length]; simpa using h))
      intro y hy
      have hmem : y ∈ (popMin e l).2 := ((drainAll_perm (popMin e l).2).mem_iff).1 hy
      have hmem2 : y ∈ e :: l := ((popMin_perm e l).mem_iff).1 (by simp [hmem])
      exact popMin_min e l y hmem2

theorem drainAll_sorted (l : List AgentEvent) :
    (drainAll l).Pairwise (fun a b => a.priority ≤ b.priority) :=
  drainAll_sorted_aux l.length l le_rfl

/-- The queue state: the multiset of currently queued events (listener and
lock bookkeeping carries no queue-visible state). -/
structure EventQueue where
  queue : List AgentEvent
deriving Repr

def EventQueue.empty : EventQueue := ⟨[]⟩

/-- EventQueue.put (the spec's `submit`): thread-safe insert. -/
def EventQueue.put (q : EventQueue) (e : AgentEvent) : EventQueue :=
  ⟨q.queue ++ [e]⟩

/-- EventQueue.get_all_pending (the spec's `drain_all`): drain every pending
event via repeated `get_nowait`, leaving the queue empty. -/
def EventQueue.get_all_pending (q : EventQueue) : List AgentEvent × EventQueue :=
  (drainAll q.queue, ⟨[]⟩)

/-- EventQueue.has_pending: non-blocking emptiness peek. -/
def EventQueue.has_pending (q : EventQueue) : Bool :=
  !q.queue.isEmpty

/-- A sequence of `submit` calls starting from a queue state. -/
def submitAll (q : EventQueue) (evs : List AgentEvent) : EventQueue :=
  evs.foldl EventQueue.put q

theorem submitAll_queue (q : EventQueue) (evs : List AgentEvent) :
    (submitAll q evs).queue = q.queue ++ evs := by
  induction evs generalizing q with
  | nil => simp [submitAll]
  | cons e evs ih => simp [submitAll, EventQueue.put] at ih ⊢; simp [ih]

/-- C4: for every sequence of submit calls, one drain_all returns all
submitted events sorted by ascending priority, and an immediately following
drain_all with no new submissions returns the empty sequence. -/
theorem drain_all_sorted_and_second_drain_empty (evs : List AgentEvent) :
    List.Perm (EventQueue.get_all_pending (submitAll EventQueue.empty evs)).1 evs ∧
    (EventQueue.get_all_pending (submitAll EventQueue.empty evs)).1.Pairwise
      (fun a b => a.priority ≤ b.priority) ∧
    (EventQueue.get_all_pending
      (EventQueue.get_all_pending (submitAll EventQueue.empty evs)).2).1 = [] := by
  refine ⟨?_, ?_, by simp [EventQueue.get_all_pending, drainAll]⟩
  · simpa [EventQueue.get_all_pending, submitAll_queue, EventQueue.empty]
      using drainAll_perm evs
  · simpa [EventQueue.get_all_pending, submitAll_queue, EventQueue.empty]
      using drainAll_sorted evs

/-! ## Tool registry (registry.py)

Python values reaching the registry (tool arguments, manifest fields, tool
return values) are modelled by `PyVal`; raised Python exceptions by `PyError`.
Fallible operations return `Except PyError`.  Filesystem effects of
`create_tool` (mkdir, file writes) are recorded in an effect list; the
outcomes of the fallible external steps (directory creation, file writes, pip
install, module import) are supplied by a `CreateEnv` oracle, with the module
produced by a successful import standing for the just-written code. -/

inductive PyVal where
  | str (s : String)
  | int (i : Int)
  | list (l : List PyVal)
  | dict (l : List (String × PyVal))
  | none
deriving Repr

inductive PyError where
  | typeError (msg : String)
  | osError (msg : String)
  | calledProcessError (msg : String)
  | importError (msg : String)
  | exception (msg : String)
deriving Repr, DecidableEq

/-- The text `str(e)` of an exception, as used in the f-strings of registry.py. -/
def PyError.str : PyError → String
  | .typeError m => m
  | .osError m => m
  | .calledProcessError m => m
  | .importError m => m
  | .exception m => m

/-- Model of `traceback.format_exc()` for the exception being handled. -/
def tracebackOf (e : PyError) : String :=
  "Traceback (most recent call last):\n" ++ e.str

/-- Python truthiness of a value, as used by `if tags:` and `if dependencies:`. -/
def pyTruthy : PyVal → Bool
  | .str s => s != ""
  | .int i => i != 0
  | .list l => !l.isEmpty
  | .dict l => !l.isEmpty
  | .none => false

mutual

/-- Python `repr` of a value (inner-quote escaping elided). -/
def pyRepr : PyVal → String
  | .str s => "'" ++ s ++ "'"
  | .int i => toString i
  | .list l => "[" ++ pyReprList l ++ "]"
  | .dict l => "\x7b" ++ pyReprDict l ++ "\x7d"
  | .none => "None"

def pyReprList : List PyVal → String
  | [] => ""
  | [v] => pyRepr v
  | v :: w :: vs => pyRepr v ++ ", " ++ pyReprList (w :: vs)

def pyReprDict : List (String × PyVal) → String
  | [] => ""
  | [(k, v)] => "'" ++ k ++ "': " ++ pyRepr v
  | (k, v) :: kv :: kvs => "'" ++ k ++ "': " ++ pyRepr v ++ ", " ++ pyReprDict (kv :: kvs)

end

/-- Python `str` of a value, as applied to a tool's return value. -/
def pyStr : PyVal → String
  | .str s => s
  | v => pyRepr v

mutual

/-- Model of `json.dumps` (string escaping and `indent=2` whitespace elided). -/
def pyJson : PyVal → String
  | .str s => "\"" ++ s ++ "\""
  | .int i => toString i
  | .list l => "[" ++ pyJsonList l ++ "]"
  | .dict l => "\x7b" ++ pyJsonDict l ++ "\x7d"
  | .none => "null"

def pyJsonList : List PyVal → String
  | [] => ""
  | [v] => pyJson v
  | v :: w :: vs => pyJson v ++ ", " ++ pyJsonList (w :: vs)

def pyJsonDict : List (String × PyVal) → String
  | [] => ""
  | [(k, v)] => "\"" ++ k ++ "\": " ++ pyJson v
  | (k, v) :: kv :: kvs => "\"" ++ k ++ "\": " ++ pyJson v ++ ", " ++ pyJsonDict (kv :: kvs)

end

/-- The keyword arguments of one tool call (`arguments: dict`). -/
abbrev Args := List (String × PyVal)

/-- Dictionary lookup, `kwargs.get(k)`. -/
def argGet (args : Args) (k : String) : Option PyVal :=
  (args.find? (fun kv => kv.1 == k)).map (fun kv => kv.2)

/-- A loaded Python module exposing `execute(**kwargs)`; calling it may raise. -/
structure PyModule where
  execFn : Args → Except PyError PyVal

/-- The manifest dict built in `create_tool` (tags key present only if truthy). -/
structure Manifest where
  name : String
  description : PyVal
  parameters : PyVal
  tags : Option PyVal

def Manifest.toPyVal (m : Manifest) : PyVal :=
  .dict ([("name", .str m.name), ("description", m.description),
          ("parameters", m.parameters)] ++
         (match m.tags with | some t => [("tags", t)] | Option.none => []))

def manifestJson (m : Manifest) : String := pyJson m.toPyVal

/-- One value of `self._tools`: `{"manifest": ..., "module": ...}`. -/
structure ToolEntry where
  manifest : Manifest
  module : PyModule

/-- A recorded filesystem effect of `create_tool`. -/
inductive FSOp where
  | mkdir (path : String)
  | write (path : String) (content : String)

/-- The registry's state: `self._tools` as an insertion-ordered association
list (Python dict semantics), plus the accumulated filesystem effects. -/
structure RegState where
  tools : List (String × ToolEntry)
  fs : List FSOp

def RegState.init : RegState := ⟨[], []⟩

/-- Dict assignment `self._tools[name] = entry`: replaces in place when the key
exists (keeping its position), appends otherwise. -/
def registerEntry (tools : List (String × ToolEntry)) (name : String)
    (entry : ToolEntry) : List (String × ToolEntry) :=
  match tools with
  | [] => [(name, entry)]
  | kv :: tl =>
    if kv.1 == name then (name, entry) :: tl
    else kv :: registerEntry tl name entry

/-- ToolRegistry.register. -/
def RegState.register (st : RegState) (name : String) (manifest : Manifest)
    (module : PyModule) : RegState :=
  { st with tools := registerEntry st.tools name ⟨manifest, module⟩ }

/-- Lookup `self._tools.get(name)`. -/
def lookupTool (tools : List (String × ToolEntry)) (name : String) : Option ToolEntry :=
  (tools.find? (fun kv => kv.1 == name)).map (fun kv => kv.2)

/-- The schema dicts `{name, description, parameters}` returned by get_schemas. -/
structure Schema where
  name : String
  description : PyVal
  parameters : PyVal

def THINK_SCHEMA : Schema :=
  { name := "think"
    description := .str ("Use this tool to think through a problem step-by-step before acting. " ++
      "Write out your reasoning, plan, or analysis. This does not produce any " ++
      "side effects — it simply lets you reason before deciding what to do next.")
    parameters := .dict
      [("type", .str "object"),
       ("properties", .dict
         [("thought", .dict
           [("type", .str "string"),
            ("description", .str "Your step-by-step reasoning or analysis")])]),
       ("required", .list [.str "thought"])] }

def CREATE_TOOL_SCHEMA : Schema :=
  { name := "create_tool"
    description := .str ("Create a new tool that persists to disk and becomes immediately available. " ++
      "Use this when you need a capability that doesn't exist yet. " ++
      "The code must define an `execute(**kwargs)` function that returns a string.")
    parameters := .dict
      [("type", .str "object"),
       ("properties", .dict
         [("tool_name", .dict
           [("type", .str "string"),
            ("description", .str "Snake_case name for the tool (e.g. 'web_search')")]),
          ("description", .dict
           [("type", .str "string"),
            ("description", .str "What the tool does — shown to the LLM")]),
          ("parameters", .dict
           [("type", .str "object"),
            ("description", .str "JSON Schema describing the tool's parameters")]),
          ("code", .dict
           [("type", .str "string"),
            ("description", .str ("Python source code for the tool. Must define an `execute(**kwargs)` " ++
              "function that returns a string result."))]),
          ("dependencies", .dict
           [("type", .str "array"),
            ("items", .dict [("type", .str "string")]),
            ("description", .str "List of pip packages the tool needs (e.g. ['requests'])")]),
          ("tags", .dict
           [("type", .str "array"),
            ("items", .dict [("type", .str "string")]),
            ("description", .str "Optional tags for categorizing the tool (e.g. ['io', 'filesystem'])")])]),
       ("required", .list [.str "tool_name", .str "description", .str "parameters", .str "code"])] }

/-- ToolRegistry.get_schemas: built-ins first, then one entry per registered
tool in registry (dict insertion) order. -/
def RegState.get_schemas (st : RegState) : List Schema :=
  [THINK_SCHEMA, CREATE_TOOL_SCHEMA] ++
    st.tools.map (fun kv =>
      { name := kv.2.manifest.name
        description := kv.2.manifest.description
        parameters := kv.2.manifest.parameters })

/-- ToolRegistry.has. -/
def RegState.has (st : RegState) (name : String) : Bool :=
  st.tools.any (fun kv => kv.1 == name) || name == "create_tool" || name == "think"

/-- Outcomes of the external steps of one `create_tool` call: directory
creation, the three file writes, the pip install, and the import of the
freshly written module. -/
structure CreateEnv where
  mkdirResult : Except PyError Unit
  writeManifestResult : Except PyError Unit
  writeCodeResult : Except PyError Unit
  writeReqResult : Except PyError Unit
  pipResult : Except PyError Unit
  importResult : Except PyError PyModule

def successMsg (nm : String) : String :=
  "Tool '" ++ nm ++ "' created and registered successfully."

def failMsg (nm : String) (e : PyError) : String :=
  "Failed to create tool '" ++ nm ++ "': " ++ e.str ++ "\n" ++ tracebackOf e

/-- Steps of `"\n".join(dependencies)`: joining demands an iterable whose items
are strings (a plain string joins its characters). -/
def joinDeps : PyVal → Except PyError String
  | .list l =>
    match l.mapM (fun v => match v with | .str s => some s | _ => Option.none) with
    | some ss => .ok (String.intercalate "\n" ss)
    | Option.none => .error (.typeError "sequence item: expected str instance")
  | .str s => .ok (String.intercalate "\n" (s.data.map (fun c => String.singleton c)))
  | _ => .error (.typeError "can only join an iterable")

/-- The body of ToolRegistry.create_tool inside its try block: every failure is
caught and rendered with `failMsg`; effects of completed steps stay recorded. -/
def createToolBody (st : RegState) (env : CreateEnv) (nm dir : String)
    (description parameters code dependencies tags : PyVal) : RegState × String :=
  match env.mkdirResult with
  | .error e => (st, failMsg nm e)
  | .ok _ =>
    let st1 : RegState := { st with fs := st.fs ++ [.mkdir dir] }
    let manifest : Manifest :=
      { name := nm, description := description, parameters := parameters
        tags := if pyTruthy tags then some tags else Option.none }
    match env.writeManifestResult with
    | .error e => (st1, failMsg nm e)
    | .ok _ =>
      let st2 : RegState :=
        { st1 with fs := st1.fs ++ [.write (dir ++ "/manifest.json") (manifestJson manifest)] }
      match code with
      | .str codeStr =>
        (match env.writeCodeResult with
        | .error e => (st2, failMsg nm e)
        | .ok _ =>
          let st3 : RegState :=
            { st2 with fs := st2.fs ++ [.write (dir ++ "/__init__.py") codeStr] }
          let afterDeps : RegState × Option PyError :=
            if pyTruthy dependencies then
              match joinDeps dependencies with
              | .error e => (st3, some e)
              | .ok content =>
                match env.writeReqResult with
                | .error e => (st3, some e)
                | .ok _ =>
                  let st4 : RegState :=
                    { st3 with fs := st3.fs ++ [.write (dir ++ "/requirements.txt") (content ++ "\n")] }
                  match env.pipResult with
                  | .error e => (st4, some e)
                  | .ok _ => (st4, Option.none)
            else (st3, Option.none)
          match afterDeps with
          | (stD, some e) => (stD, failMsg nm e)
          | (stD, Option.none) =>
            match env.importResult with
            | .error e => (stD, failMsg nm e)
            | .ok module =>
              (stD.register nm manifest module, successMsg nm))
      | _ => (st2, failMsg nm (.typeError "write_text() argument must be str"))

/-- ToolRegistry.create_tool.  The line `tool_dir = config.TOOLS_DIR / tool_name`
runs before the try block: a non-string tool_name raises an uncaught TypeError. -/
def RegState.create_tool (st : RegState) (env : CreateEnv)
    (tool_name description parameters code dependencies tags : PyVal) :
    Except PyError (RegState × String) :=
  match tool_name with
  | .str nm =>
    .ok (createToolBody st env nm ("tools/" ++ nm) description parameters code dependencies tags)
  | _ => .error (.typeError "unsupported operand type(s) for /: expected str")

def createToolParamNames : List String :=
  ["tool_name", "description", "parameters", "code", "dependencies", "tags"]

def createToolRequiredNames : List String :=
  ["tool_name", "description", "parameters", "code"]

/-- Whether `self.create_tool(**kwargs)` binds: every keyword must name a
parameter of create_tool and every required parameter must be supplied,
otherwise Python raises TypeError at the call site. -/
def bindsCreateTool (args : Args) : Bool :=
  args.all (fun kv => createToolParamNames.contains kv.1) &&
    createToolRequiredNames.all (fun k => (argGet args k).isSome)

/-- The dispatch `self.create_tool(**kwargs)` inside execute: binding happens
outside any try, so a binding failure propagates. -/
def createToolCall (st : RegState) (env : CreateEnv) (args : Args) :
    Except PyError (RegState × String) :=
  if bindsCreateTool args then
    st.create_tool env
      ((argGet args "tool_name").getD .none)
      ((argGet args "description").getD .none)
      ((argGet args "parameters").getD .none)
      ((argGet args "code").getD .none)
      ((argGet args "dependencies").getD .none)
      ((argGet args "tags").getD .none)
  else
    .error (.typeError "create_tool() argument binding failed")

/-- ToolRegistry.execute: dispatch by name — `think` first, then `create_tool`,
then the registered-tool table; only the registered-tool invocation sits in a
try/except. -/
def RegState.execute (st : RegState) (env : CreateEnv) (name : String) (args : Args) :
    Except PyError (RegState × PyVal) :=
  if name == "think" then
    .ok (st, (argGet args "thought").getD (.str ""))
  else if name == "create_tool" then
    match createToolCall st env args with
    | .error e => .error e
    | .ok (st2, msg) => .ok (st2, .str msg)
  else
    match lookupTool st.tools name with
    | Option.none => .ok (st, .str ("Error: tool '" ++ name ++ "' not found"))
    | some entry =>
      match entry.module.execFn args with
      | .ok v => .ok (st, .str (pyStr v))
      | .error e =>
        .ok (st, .str ("Error executing tool '" ++ name ++ "': " ++ e.str ++ "\n" ++ tracebackOf e))

/-! ## Registry claims: think echo, unknown names, the create_tool dispatch fault -/

/-- A module whose execute returns the empty string; used for concrete states. -/
def dummyModule : PyModule := ⟨fun _ => .ok (.str "")⟩

/-- A step oracle on which every external step succeeds. -/
def envNoop : CreateEnv :=
  { mkdirResult := .ok (), writeManifestResult := .ok (), writeCodeResult := .ok ()
    writeReqResult := .ok (), pipResult := .ok (), importResult := .ok dummyModule }

/-- C9: an argument mapping holding a string under key thought makes
execute("think", ...) return that string unchanged with the registry state
unmodified. -/
theorem think_echoes_thought (st : RegState) (env : CreateEnv) (args : Args) (s : String)
    (h : argGet args "thought" = some (.str s)) :
    st.execute env "think" args = .ok (st, .str s) := by
  simp [RegState.execute, h]

theorem think_echoes_thought_witness :
    argGet [("thought", PyVal.str "hello")] "thought" = some (.str "hello") ∧
    RegState.init.execute envNoop "think" [("thought", PyVal.str "hello")] =
      .ok (RegState.init, .str "hello") :=
  ⟨rfl, think_echoes_thought RegState.init envNoop [("thought", PyVal.str "hello")] "hello" rfl⟩

/-- C7: a name that is neither registered nor a built-in makes execute return,
without raising, an error string that contains the given tool name. -/
theorem unknown_tool_error (st : RegState) (env : CreateEnv) (name : String) (args : Args)
    (hthink : name ≠ "think") (hcreate : name ≠ "create_tool")
    (hreg : lookupTool st.tools name = Option.none) :
    ∃ pre post, st.execute env name args = .ok (st, .str (pre ++ name ++ post)) := by
  refine ⟨"Error: tool '", "' not found", ?_⟩
  simp [RegState.execute, beq_iff_eq, hthink, hcreate, hreg]

theorem unknown_tool_error_witness :
    ("foo" ≠ "think" ∧ "foo" ≠ "create_tool" ∧
      lookupTool RegState.init.tools "foo" = Option.none) ∧
    ∃ pre post,
      RegState.init.execute envNoop "foo" [] = .ok (RegState.init, .str (pre ++ "foo" ++ post)) :=
  ⟨⟨by decide, by decide, rfl⟩,
    unknown_tool_error RegState.init envNoop "foo" [] (by decide) (by decide) rfl⟩

/-- C1 (code bug): the create_tool dispatch `self.create_tool(**kwargs)` sits
outside any try/except, so an argument mapping that does not bind the
create_tool signature (here: the empty mapping, missing all four required
parameters) raises a TypeError that propagates out of execute instead of being
returned as an error string. -/
theorem execute_create_tool_unbindable_args_raises :
    RegState.init.execute envNoop "create_tool" [] =
      .error (.typeError "create_tool() argument binding failed") := rfl

/-! ## Structure of one create_tool call -/

theorem lookupTool_registerEntry_self (tools : List (String × ToolEntry))
    (nm : String) (e : ToolEntry) :
    lookupTool (registerEntry tools nm e) nm = some e := by
  induction tools with
  | nil => simp [registerEntry, lookupTool, List.find?]
  | cons kv tl ih =>
    by_cases hk : kv.1 == nm
    · simp [registerEntry, hk, lookupTool, List.find?]
    · simp only [registerEntry, hk, if_neg, Bool.false_eq_true, not_false_eq_true, if_false]
      simpa [lookupTool, List.find?, hk] using ih

theorem mem_registerEntry (tools : List (String × ToolEntry)) (nm : String)
    (e : ToolEntry) (kv : String × ToolEntry) (h : kv ∈ registerEntry tools nm e) :
    kv ∈ tools ∨ kv = (nm, e) := by
  induction tools with
  | nil => simp [registerEntry] at h; simp [h]
  | cons kv0 tl ih =>
    by_cases hk : kv0.1 == nm
    · simp [registerEntry, hk] at h
      rcases h with h | h
      · exact .inr (by simp [h])
      · exact .inl (by simp [h])
    · simp [registerEntry, hk] at h
      rcases h with h | h
      · exact .inl (by simp [h])
      · rcases ih h with h2 | h2
        · exact .inl (by simp [h2])
        · exact .inr h2

theorem self_mem_registerEntry (tools : List (String × ToolEntry)) (nm : String)
    (e : ToolEntry) : (nm, e) ∈ registerEntry tools nm e := by
  induction tools with
  | nil => simp [registerEntry]
  | cons kv tl ih =>
    by_cases hk : kv.1 == nm
    · simp [registerEntry, hk]
    · simp [registerEntry, hk, ih]

/-- The dependency step of create_tool runs without fault: when the
dependency list is truthy, joining it succeeds and the requirements write and
the pip install both succeed. -/
def depsStepOk (env : CreateEnv) (dep : PyVal) : Prop :=
  pyTruthy dep = true →
    ((∃ s, joinDeps dep = .ok s) ∧ (∃ u, env.writeReqResult = .ok u) ∧
      (∃ u, env.pipResult = .ok u))

/-- All steps of one create_tool call run without fault. -/
def allStepsOk (env : CreateEnv) (c dep : PyVal) : Prop :=
  (∃ u, env.mkdirResult = .ok u) ∧ (∃ u, env.writeManifestResult = .ok u) ∧
  (∃ cs, c = .str cs) ∧ (∃ u, env.writeCodeResult = .ok u) ∧ depsStepOk env dep ∧
  (∃ m, env.importResult = .ok m)

/-- Master case analysis of the create_tool body: the filesystem only grows by
the effects of the completed steps, and the call either succeeds — exactly when
every step succeeds — registering the freshly imported module under the tool
name, or returns a `failMsg` verdict leaving the tool table untouched. -/
theorem createToolBody_spec (st : RegState) (env : CreateEnv) (nm dir : String)
    (d p c dep tg : PyVal) :
    ∃ ops,
      (createToolBody st env nm dir d p c dep tg).1.fs = st.fs ++ ops ∧
      ((∃ mod, env.importResult = .ok mod ∧
          createToolBody st env nm dir d p c dep tg =
            ({ tools := registerEntry st.tools nm
                 ⟨⟨nm, d, p, if pyTruthy tg then some tg else Option.none⟩, mod⟩,
               fs := st.fs ++ ops }, successMsg nm) ∧ allStepsOk env c dep) ∨
       (∃ e, (createToolBody st env nm dir d p c dep tg).2 = failMsg nm e ∧
          (createToolBody st env nm dir d p c dep tg).1.tools = st.tools ∧
          ¬ allStepsOk env c dep)) := by
  cases hmk : env.mkdirResult with
  | error e =>
    exact ⟨[], by simp [createToolBody, hmk],
      .inr ⟨e, by simp [createToolBody, hmk], by simp [createToolBody, hmk],
        fun h => by simp [allStepsOk, hmk] at h⟩⟩
  | ok u =>
    cases hwm : env.writeManifestResult with
    | error e =>
      exact ⟨[.mkdir dir], by simp [createToolBody, hmk, hwm],
        .inr ⟨e, by simp [createToolBody, hmk, hwm], by simp [createToolBody, hmk, hwm],
          fun h => by simp [allStepsOk, hwm] at h⟩⟩
    | ok u2 =>
      cases c with
      | str cs =>
        cases hwc : env.writeCodeResult with
        | error e =>
          exact ⟨[.mkdir dir, .write (dir ++ "/manifest.json")
              (manifestJson ⟨nm, d, p, if pyTruthy tg then some tg else Option.none⟩)],
            by simp [createToolBody, hmk, hwm, hwc],
            .inr ⟨e, by simp [createToolBody, hmk, hwm, hwc],
              by simp [createToolBody, hmk, hwm, hwc],
              fun h => by simp [allStepsOk, hwc] at h⟩⟩
        | ok u3 =>
          by_cases hdep : pyTruthy dep
          · cases hj : joinDeps dep with
            | error e =>
              exact ⟨[.mkdir dir, .write (dir ++ "/manifest.json")
                  (manifestJson ⟨nm, d, p, if pyTruthy tg then some tg else Option.none⟩),
                  .write (dir ++ "/__init__.py") cs],
                by simp [createToolBody, hmk, hwm, hwc, hdep, hj],
                .inr ⟨e, by simp [createToolBody, hmk, hwm, hwc, hdep, hj],
                  by simp [createToolBody, hmk, hwm, hwc, hdep, hj],
                  fun h => by
                    obtain ⟨-, -, -, -, hd, -⟩ := h
                    obtain ⟨⟨s, hs⟩, -, -⟩ := hd hdep
                    simp [hj] at hs⟩⟩
            | ok content =>
              cases hwr : env.writeReqResult with
              | error e =>
                exact ⟨[.mkdir dir, .write (dir ++ "/manifest.json")
                    (manifestJson ⟨nm, d, p, if pyTruthy tg then some tg else Option.none⟩),
                    .write (dir ++ "/__init__.py") cs],
                  by simp [createToolBody, hmk, hwm, hwc, hdep, hj, hwr],
                  .inr ⟨e, by simp [createToolBody, hmk, hwm, hwc, hdep, hj, hwr],
                    by simp [createToolBody, hmk, hwm, hwc, hdep, hj, hwr],
                    fun h => by
                      obtain ⟨-, -, -, -, hd, -⟩ := h
                      obtain ⟨-, ⟨u6, hw⟩, -⟩ := hd hdep
                      simp [hwr] at hw⟩⟩
              | ok u4 =>
                cases hpip : env.pipResult with
                | error e =>
                  exact ⟨[.mkdir dir, .write (dir ++ "/manifest.json")
                      (manifestJson ⟨nm, d, p, if pyTruthy tg then some tg else Option.none⟩),
                      .write (dir ++ "/__init__.py") cs,
                      .write (dir ++ "/requirements.txt") (content ++ "\n")],
                    by simp [createToolBody, hmk, hwm, hwc, hdep, hj, hwr, hpip],
                    .inr ⟨e, by simp [createToolBody, hmk, hwm, hwc, hdep, hj, hwr, hpip],
                      by simp [createToolBody, hmk, hwm, hwc, hdep, hj, hwr, hpip],
                      fun h => by
                        obtain ⟨-, -, -, -, hd, -⟩ := h
                        obtain ⟨-, -, u7, hp⟩ := hd hdep
                        simp [hpip] at hp⟩⟩
                | ok u5 =>
                  cases himp : env.importResult with
                  | error e =>
                    exact ⟨[.mkdir dir, .write (dir ++ "/manifest.json")
                        (manifestJson ⟨nm, d, p, if pyTruthy tg then some tg else Option.none⟩),
                        .write (dir ++ "/__init__.py") cs,
                        .write (dir ++ "/requirements.txt") (content ++ "\n")],
                      by simp [createToolBody, hmk, hwm, hwc, hdep, hj, hwr, hpip, himp],
                      .inr ⟨e, by simp [createToolBody, hmk, hwm, hwc, hdep, hj, hwr, hpip, himp],
                        by simp [createToolBody, hmk, hwm, hwc, hdep, hj, hwr, hpip, himp],
                        fun h => by
                          obtain ⟨-, -, -, -, -, m, hm⟩ := h
                          simp [himp] at hm⟩⟩
                  | ok mod =>
                    refine ⟨[.mkdir dir, .write (dir ++ "/manifest.json")
                        (manifestJson ⟨nm, d, p, if pyTruthy tg then some tg else Option.none⟩),
                        .write (dir ++ "/__init__.py") cs,
                        .write (dir ++ "/requirements.txt") (content ++ "\n")],
                      by simp [createToolBody, hmk, hwm, hwc, hdep, hj, hwr, hpip, himp,
                        RegState.register],
                      .inl ⟨mod, rfl, ?_, ⟨u, hmk⟩, ⟨u2, hwm⟩, ⟨cs, rfl⟩, ⟨u3, hwc⟩,
                        fun _ => ⟨⟨content, hj⟩, ⟨u4, hwr⟩, ⟨u5, hpip⟩⟩, ⟨mod, himp⟩⟩⟩
                    · simp [createToolBody, hmk, hwm, hwc, hdep, hj, hwr, hpip, himp,
                        RegState.register]
          · cases himp : env.importResult with
            | error e =>
              exact ⟨[.mkdir dir, .write (dir ++ "/manifest.json")
                  (manifestJson ⟨nm, d, p, if pyTruthy tg then some tg else Option.none⟩),
                  .write (dir ++ "/__init__.py") cs],
                by simp [createToolBody, hmk, hwm, hwc, hdep, himp],
                .inr ⟨e, by simp [createToolBody, hmk, hwm, hwc, hdep, himp],
                  by simp [createToolBody, hmk, hwm, hwc, hdep, himp],
                  fun h => by
                    obtain ⟨-, -, -, -, -, m, hm⟩ := h
                    simp [himp] at hm⟩⟩
            | ok mod =>
              refine ⟨[.mkdir dir, .write (dir ++ "/manifest.json")
                  (manifestJson ⟨nm, d, p, if pyTruthy tg then some tg else Option.none⟩),
                  .write (dir ++ "/__init__.py") cs],
                by simp [createToolBody, hmk, hwm, hwc, hdep, himp, RegState.register],
                .inl ⟨mod, rfl, ?_, ⟨u, hmk⟩, ⟨u2, hwm⟩, ⟨cs, rfl⟩, ⟨u3, hwc⟩,
                  fun hc => absurd hc (by simp [hdep]), ⟨mod, himp⟩⟩⟩
              · simp [createToolBody, hmk, hwm, hwc, hdep, himp, RegState.register]
      | int i =>
        exact ⟨[.mkdir dir, .write (dir ++ "/manifest.json")
            (manifestJson ⟨nm, d, p, if pyTruthy tg then some tg else Option.none⟩)],
          by simp [createToolBody, hmk, hwm],
          .inr ⟨.typeError "write_text() argument must be str",
            by simp [createToolBody, hmk, hwm], by simp [createToolBody, hmk, hwm],
            fun h => by obtain ⟨-, -, ⟨cs, hcs⟩, -⟩ := h; simp at hcs⟩⟩
      | list l =>
        exact ⟨[.mkdir dir, .write (dir ++ "/manifest.json")
            (manifestJson ⟨nm, d, p, if pyTruthy tg then some tg else Option.none⟩)],
          by simp [createToolBody, hmk, hwm],
          .inr ⟨.typeError "write_text() argument must be str",
            by simp [createToolBody, hmk, hwm], by simp [createToolBody, hmk, hwm],
            fun h => by obtain ⟨-, -, ⟨cs, hcs⟩, -⟩ := h; simp at hcs⟩⟩
      | dict l =>
        exact ⟨[.mkdir dir, .write (dir ++ "/manifest.json")
            (manifestJson ⟨nm, d, p, if pyTruthy tg then some tg else Option.none⟩)],
          by simp [createToolBody, hmk, hwm],
          .inr ⟨.typeError "write_text() argument must be str",
            by simp [createToolBody, hmk, hwm], by simp [createToolBody, hmk, hwm],
            fun h => by obtain ⟨-, -, ⟨cs, hcs⟩, -⟩ := h; simp at hcs⟩⟩
      | none =>
        exact ⟨[.mkdir dir, .write (dir ++ "/manifest.json")
            (manifestJson ⟨nm, d, p, if pyTruthy tg then some tg else Option.none⟩)],
          by simp [createToolBody, hmk, hwm],
          .inr ⟨.typeError "write_text() argument must be str",
            by simp [createToolBody, hmk, hwm], by simp [createToolBody, hmk, hwm],
            fun h => by obtain ⟨-, -, ⟨cs, hcs⟩, -⟩ := h; simp at hcs⟩⟩

/-- The verdict string of the create_tool body does not depend on the starting
registry state: which branch runs is decided by the step outcomes and the
arguments alone. -/
theorem createToolBody_msg_indep (stA stB : RegState) (env : CreateEnv) (nm dir : String)
    (d p c dep tg : PyVal) :
    (createToolBody stA env nm dir d p c dep tg).2 =
      (createToolBody stB env nm dir d p c dep tg).2 := by
  cases hmk : env.mkdirResult with
  | error e => simp [createToolBody, hmk]
  | ok u =>
    cases hwm : env.writeManifestResult with
    | error e => simp [createToolBody, hmk, hwm]
    | ok u2 =>
      cases c with
      | str cs =>
        cases hwc : env.writeCodeResult with
        | error e => simp [createToolBody, hmk, hwm, hwc]
        | ok u3 =>
          by_cases hdep : pyTruthy dep
          · cases hj : joinDeps dep with
            | error e => simp [createToolBody, hmk, hwm, hwc, hdep, hj]
            | ok content =>
              cases hwr : env.writeReqResult with
              | error e => simp [createToolBody, hmk, hwm, hwc, hdep, hj, hwr]
              | ok u4 =>
                cases hpip : env.pipResult with
                | error e => simp [createToolBody, hmk, hwm, hwc, hdep, hj, hwr, hpip]
                | ok u5 =>
                  cases himp : env.importResult <;>
                    simp [createToolBody, hmk, hwm, hwc, hdep, hj, hwr, hpip, himp]
          · cases himp : env.importResult <;>
              simp [createToolBody, hmk, hwm, hwc, hdep, himp]
      | int i => simp [createToolBody, hmk, hwm]
      | list l => simp [createToolBody, hmk, hwm]
      | dict l => simp [createToolBody, hmk, hwm]
      | none => simp [createToolBody, hmk, hwm]

theorem createToolCall_msg_indep (stA stB : RegState) (env : CreateEnv) (args : Args) :
    (createToolCall stA env args).map Prod.snd =
      (createToolCall stB env args).map Prod.snd := by
  unfold createToolCall
  by_cases hb : bindsCreateTool args
  · simp only [hb, if_true]
    unfold RegState.create_tool
    cases (argGet args "tool_name").getD .none with
    | str nm =>
      simp only [Except.map]
      exact congrArg Except.ok (createToolBody_msg_indep stA stB env nm ("tools/" ++ nm) _ _ _ _ _)
    | int i => rfl
    | list l => rfl
    | dict l => rfl
    | none => rfl
  · simp [hb]

/-- C8: every create_tool call returns a string instead of raising; when every
step succeeds the string is the success message naming the tool, otherwise it
is a failure string carrying the causing error's text and a diagnostic trace,
the registered-tool table is untouched, and the artifacts of the completed
steps stay on disk (the filesystem effect list only grows — no rollback). -/
theorem create_tool_fault_tolerance (st : RegState) (env : CreateEnv) (nm : String)
    (d p c dep tg : PyVal) :
    ∃ st2 msg ops, st.create_tool env (.str nm) d p c dep tg = .ok (st2, msg) ∧
      st2.fs = st.fs ++ ops ∧
      ((allStepsOk env c dep ∧
          msg = "Tool '" ++ nm ++ "' created and registered successfully.") ∨
       (¬ allStepsOk env c dep ∧ st2.tools = st.tools ∧
          ∃ e, msg = "Failed to create tool '" ++ nm ++ "': " ++ PyError.str e ++
            "\n" ++ tracebackOf e)) := by
  obtain ⟨ops, hfs, hcase⟩ := createToolBody_spec st env nm ("tools/" ++ nm) d p c dep tg
  refine ⟨(createToolBody st env nm ("tools/" ++ nm) d p c dep tg).1,
          (createToolBody st env nm ("tools/" ++ nm) d p c dep tg).2, ops,
          by simp [RegState.create_tool], hfs, ?_⟩
  rcases hcase with ⟨mod, himp, heq, hok⟩ | ⟨e, hmsg, htools, hnok⟩
  · exact .inl ⟨hok, by rw [heq]; rfl⟩
  · exact .inr ⟨hnok, htools, e, by rw [hmsg]; rfl⟩

/-- A module whose execute returns the fixed string NEW, standing for freshly
supplied tool code. -/
def modNew : PyModule := ⟨fun _ => .ok (.str "NEW")⟩

/-- A step oracle where every step succeeds and the import yields `modNew`. -/
def envNew : CreateEnv :=
  { mkdirResult := .ok (), writeManifestResult := .ok (), writeCodeResult := .ok ()
    writeReqResult := .ok (), pipResult := .ok (), importResult := .ok modNew }

/-- C2 (counterexample): create_tool happily creates a tool named think, but
the immediately following execute("think", ...) echoes the thought argument
("hi") through the built-in instead of invoking the just-registered code
(which returns "NEW"): the claim fails for the built-in names. -/
theorem create_tool_think_shadowed_counterexample :
    ∃ st2,
      RegState.init.create_tool envNew (.str "think") (.str "d") (.dict [])
          (.str "c") .none .none = .ok (st2, successMsg "think") ∧
      lookupTool st2.tools "think" =
        some ⟨⟨"think", .str "d", .dict [], Option.none⟩, modNew⟩ ∧
      modNew.execFn [("thought", .str "hi")] = .ok (.str "NEW") ∧
      st2.execute envNew "think" [("thought", .str "hi")] = .ok (st2, .str "hi") ∧
      "hi" ≠ "NEW" :=
  ⟨_, rfl, rfl, rfl, rfl, by decide⟩

/-- C2 (amended): for every tool name other than the built-ins think and
create_tool, a successful create_tool immediately followed by execute on that
name invokes the just-imported module — the table now maps the name to the new
module, whatever was registered before. -/
theorem create_tool_overwrite_visible (st : RegState) (env env2 : CreateEnv)
    (nm : String) (d p dep tg : PyVal) (cs : String) (mod : PyModule) (args : Args)
    (hthink : nm ≠ "think") (hcreate : nm ≠ "create_tool")
    (hok : allStepsOk env (.str cs) dep) (himp : env.importResult = .ok mod) :
    ∃ st2, st.create_tool env (.str nm) d p (.str cs) dep tg = .ok (st2, successMsg nm) ∧
      lookupTool st2.tools nm =
        some ⟨⟨nm, d, p, if pyTruthy tg then some tg else Option.none⟩, mod⟩ ∧
      (∀ v, mod.execFn args = .ok v →
        st2.execute env2 nm args = .ok (st2, .str (pyStr v))) := by
  obtain ⟨ops, hfs, hcase⟩ := createToolBody_spec st env nm ("tools/" ++ nm) d p (.str cs) dep tg
  rcases hcase with ⟨mod2, himp2, heq, -⟩ | ⟨e, -, -, hnok⟩
  · have hmod : mod2 = mod := by
      rw [himp] at himp2
      exact (Except.ok.inj himp2).symm
    rw [hmod] at heq
    refine ⟨RegState.mk (registerEntry st.tools nm
        ⟨⟨nm, d, p, if pyTruthy tg then some tg else Option.none⟩, mod⟩)
        (st.fs ++ ops), ?_, lookupTool_registerEntry_self _ _ _, ?_⟩
    · simp [RegState.create_tool, heq]
    · intro v hv
      simp [RegState.execute, beq_iff_eq, hthink, hcreate,
        lookupTool_registerEntry_self, hv]
  · exact absurd hok hnok

theorem create_tool_overwrite_visible_witness :
    (("echo" : String) ≠ "think") ∧ (("echo" : String) ≠ "create_tool") ∧
    allStepsOk envNew (.str "c") .none ∧ envNew.importResult = .ok modNew ∧
    ∃ st2, RegState.init.create_tool envNew (.str "echo") (.str "d") (.dict [])
        (.str "c") .none .none = .ok (st2, successMsg "echo") ∧
      lookupTool st2.tools "echo" =
        some ⟨⟨"echo", .str "d", .dict [], Option.none⟩, modNew⟩ ∧
      (∀ v, modNew.execFn [] = .ok v →
        st2.execute envNew "echo" [] = .ok (st2, .str (pyStr v))) :=
  ⟨by decide, by decide,
   ⟨⟨(), rfl⟩, ⟨(), rfl⟩, ⟨"c", rfl⟩, ⟨(), rfl⟩,
     fun h => by simp [pyTruthy] at h, ⟨modNew, rfl⟩⟩, rfl,
   create_tool_overwrite_visible RegState.init envNew envNew "echo" (.str "d")
     (.dict []) .none .none "c" modNew [] (by decide) (by decide)
     ⟨⟨(), rfl⟩, ⟨(), rfl⟩, ⟨"c", rfl⟩, ⟨(), rfl⟩,
       fun h => by simp [pyTruthy] at h, ⟨modNew, rfl⟩⟩ rfl⟩

theorem schema_of_mem_tools (st : RegState) (kv : String × ToolEntry) (h : kv ∈ st.tools) :
    (⟨kv.2.manifest.name, kv.2.manifest.description, kv.2.manifest.parameters⟩ : Schema) ∈
      st.get_schemas := by
  simp only [RegState.get_schemas, List.mem_append]
  exact .inr (List.mem_map_of_mem _ h)

/-- C10: execute answers think and create_tool by the built-in behaviors before
consulting the registered-tool table.  A tool registered under a built-in name
contributes its schema to get_schemas, yet execute("think", ...) still echoes
the thought argument, and the value returned by execute("create_tool", ...) is
the same whether or not a tool named create_tool is registered — the
registered code is never consulted under either name. -/
theorem builtin_dispatch_precedence (st : RegState) (env : CreateEnv)
    (d p : PyVal) (tg : Option PyVal) (modT modC : PyModule) (args : Args) :
    ((⟨"think", d, p⟩ : Schema) ∈
      (st.register "think" ⟨"think", d, p, tg⟩ modT).get_schemas) ∧
    ((st.register "think" ⟨"think", d, p, tg⟩ modT).execute env "think" args =
      .ok (st.register "think" ⟨"think", d, p, tg⟩ modT,
        (argGet args "thought").getD (.str ""))) ∧
    ((⟨"create_tool", d, p⟩ : Schema) ∈
      (st.register "create_tool" ⟨"create_tool", d, p, tg⟩ modC).get_schemas) ∧
    ((st.register "create_tool" ⟨"create_tool", d, p, tg⟩ modC).execute env
        "create_tool" args).map Prod.snd =
      (st.execute env "create_tool" args).map Prod.snd := by
  refine ⟨?_, by simp [RegState.execute], ?_, ?_⟩
  · exact schema_of_mem_tools _ ("think", ⟨⟨"think", d, p, tg⟩, modT⟩)
      (self_mem_registerEntry _ _ _)
  · exact schema_of_mem_tools _ ("create_tool", ⟨⟨"create_tool", d, p, tg⟩, modC⟩)
      (self_mem_registerEntry _ _ _)
  · have h := createToolCall_msg_indep
      (st.register "create_tool" ⟨"create_tool", d, p, tg⟩ modC) st env args
    simp only [RegState.execute]
    norm_num
    cases hA : createToolCall (st.register "create_tool" ⟨"create_tool", d, p, tg⟩ modC) env args with
    | error e =>
      cases hB : createToolCall st env args with
      | error e2 =>
        rw [hA, hB] at h
        simp [Except.map] at h
        simp [h]
      | ok p2 =>
        rw [hA, hB] at h
        simp [Except.map] at h
    | ok p1 =>
      cases hB : createToolCall st env args with
      | error e2 =>
        rw [hA, hB] at h
        simp [Except.map] at h
      | ok p2 =>
        rw [hA, hB] at h
        simp [Except.map] at h
        obtain ⟨stA2, msgA⟩ := p1
        obtain ⟨stB2, msgB⟩ := p2
        simp at h
        simp [Except.map, h]

/-! ## Reachable registry states and the schema snapshot -/

/-- Well-formedness of the tool table: keys are pairwise distinct (a Python
dict) and every entry's manifest carries its key as name (load_all keys the
dict by `manifest["name"]`; create_tool registers `tool_name` with a manifest
naming `tool_name`). -/
def WF (st : RegState) : Prop :=
  (st.tools.map Prod.fst).Nodup ∧ ∀ kv ∈ st.tools, kv.2.manifest.name = kv.1

theorem mem_keys_registerEntry (tools : List (String × ToolEntry)) (nm : String)
    (e : ToolEntry) (x : String) (h : x ∈ (registerEntry tools nm e).map Prod.fst) :
    x ∈ tools.map Prod.fst ∨ x = nm := by
  rcases List.mem_map.1 h with ⟨kv, hkv, rfl⟩
  rcases mem_registerEntry tools nm e kv hkv with h2 | h2
  · exact .inl (List.mem_map_of_mem _ h2)
  · exact .inr (by rw [h2])

theorem keys_registerEntry_nodup (tools : List (String × ToolEntry)) (nm : String)
    (e : ToolEntry) (h : (tools.map Prod.fst).Nodup) :
    ((registerEntry tools nm e).map Prod.fst).Nodup := by
  induction tools with
  | nil => simp [registerEntry]
  | cons kv tl ih =>
    simp only [List.map_cons, List.nodup_cons] at h
    by_cases hk : kv.1 == nm
    · have : kv.1 = nm := by simpa using hk
      simpa [registerEntry, hk, List.nodup_cons, ← this] using h
    · have hne : kv.1 ≠ nm := by simpa using hk
      simp only [registerEntry, hk, Bool.false_eq_true, if_false, List.map_cons,
        List.nodup_cons]
      refine ⟨fun hmem => ?_, ih h.2⟩
      rcases mem_keys_registerEntry tl nm e kv.1 hmem with h2 | h2
      · exact h.1 h2
      · exact hne h2

theorem WF_tools_registerEntry (tools : List (String × ToolEntry)) (nm : String)
    (e : ToolEntry) (hnm : e.manifest.name = nm)
    (hnd : (tools.map Prod.fst).Nodup)
    (hnames : ∀ kv ∈ tools, kv.2.manifest.name = kv.1) :
    ((registerEntry tools nm e).map Prod.fst).Nodup ∧
      ∀ kv ∈ registerEntry tools nm e, kv.2.manifest.name = kv.1 := by
  refine ⟨keys_registerEntry_nodup tools nm e hnd, fun kv hkv => ?_⟩
  rcases mem_registerEntry tools nm e kv hkv with h2 | h2
  · exact hnames kv h2
  · rw [h2]; exact hnm

/-- The registry states reachable from a fresh registry through startup
loading (load_all keyed by the manifest name) and execute calls. -/
inductive Reachable : RegState → Prop where
  | init : Reachable RegState.init
  | load (st : RegState) (m : Manifest) (mod : PyModule) (h : Reachable st) :
      Reachable (st.register m.name m mod)
  | step (st : RegState) (env : CreateEnv) (name : String) (args : Args)
      (st2 : RegState) (v : PyVal) (h : Reachable st)
      (hex : st.execute env name args = .ok (st2, v)) : Reachable st2

theorem WF_execute (st : RegState) (env : CreateEnv) (name : String) (args : Args)
    (st2 : RegState) (v : PyVal) (h : WF st)
    (hex : st.execute env name args = .ok (st2, v)) : WF st2 := by
  unfold RegState.execute at hex
  by_cases ht : name == "think"
  · simp only [ht, if_true, Except.ok.injEq, Prod.mk.injEq] at hex
    rw [← hex.1]; exact h
  · by_cases hc : name == "create_tool"
    · simp only [ht, hc, Bool.false_eq_true, if_false, if_true] at hex
      cases hcc : createToolCall st env args with
      | error e => rw [hcc] at hex; simp at hex
      | ok pr =>
        obtain ⟨stB, msg⟩ := pr
        rw [hcc] at hex
        simp only [Except.ok.injEq, Prod.mk.injEq] at hex
        rw [← hex.1]
        unfold createToolCall at hcc
        by_cases hb : bindsCreateTool args
        · simp only [hb, if_true] at hcc
          unfold RegState.create_tool at hcc
          cases harg : (argGet args "tool_name").getD .none with
          | str nm =>
            rw [harg] at hcc
            simp only [Except.ok.injEq] at hcc
            have hB : stB = (createToolBody st env nm ("tools/" ++ nm)
                ((argGet args "description").getD .none)
                ((argGet args "parameters").getD .none)
                ((argGet args "code").getD .none)
                ((argGet args "dependencies").getD .none)
                ((argGet args "tags").getD .none)).1 := by rw [hcc]
            obtain ⟨ops, -, hcase⟩ :=
              createToolBody_spec st env nm ("tools/" ++ nm)
                ((argGet args "description").getD .none)
                ((argGet args "parameters").getD .none)
                ((argGet args "code").getD .none)
                ((argGet args "dependencies").getD .none)
                ((argGet args "tags").getD .none)
            rcases hcase with ⟨mod, -, heq, -⟩ | ⟨e, -, htools, -⟩
            · rw [hB, heq]
              exact WF_tools_registerEntry st.tools nm _ rfl h.1 h.2
            · rw [hB]
              exact ⟨htools ▸ h.1, htools ▸ h.2⟩
          | int i => rw [harg] at hcc; simp at hcc
          | list l => rw [harg] at hcc; simp at hcc
          | dict l => rw [harg] at hcc; simp at hcc
          | none => rw [harg] at hcc; simp at hcc
        · simp [hb] at hcc
    · simp only [ht, hc, Bool.false_eq_true, if_false] at hex
      cases hlt : lookupTool st.tools name with
      | none =>
        simp only [hlt, Except.ok.injEq, Prod.mk.injEq] at hex
        rw [← hex.1]; exact h
      | some entry =>
        cases hfn : entry.module.execFn args with
        | ok v2 =>
          simp only [hlt, hfn, Except.ok.injEq, Prod.mk.injEq] at hex
          rw [← hex.1]; exact h
        | error e =>
          simp only [hlt, hfn, Except.ok.injEq, Prod.mk.injEq] at hex
          rw [← hex.1]; exact h

theorem Reachable_WF (st : RegState) (h : Reachable st) : WF st := by
  induction h with
  | init => exact ⟨by simp [RegState.init], by simp [RegState.init]⟩
  | load st m mod h ih =>
    exact WF_tools_registerEntry st.tools m.name ⟨m, mod⟩ rfl ih.1 ih.2
  | step st env name args st2 v h hex ih => exact WF_execute st env name args st2 v ih hex

theorem map_manifest_name_eq_keys (l : List (String × ToolEntry))
    (h : ∀ kv ∈ l, kv.2.manifest.name = kv.1) :
    l.map (fun kv => kv.2.manifest.name) = l.map Prod.fst := by
  induction l with
  | nil => rfl
  | cons kv tl ih =>
    simp only [List.map_cons, h kv (by simp)]
    rw [ih (fun kv2 hkv2 => h kv2 (by simp [hkv2]))]

/-- C3 (amended): in every reachable registry state, get_schemas lists the two
built-ins first and then exactly one entry per registered tool in registry
order; the names are pairwise distinct whenever no registered tool carries a
built-in name (create_tool can register a tool named think or create_tool,
which duplicates that name in the snapshot). -/
theorem get_schemas_builtins_then_tools (st : RegState) (h : Reachable st) :
    st.get_schemas.map Schema.name = "think" :: "create_tool" :: st.tools.map Prod.fst ∧
    ("think" ∉ st.tools.map Prod.fst → "create_tool" ∉ st.tools.map Prod.fst →
      (st.get_schemas.map Schema.name).Nodup) := by
  have hwf := Reachable_WF st h
  have hmap : st.get_schemas.map Schema.name =
      "think" :: "create_tool" :: st.tools.map Prod.fst := by
    simp only [RegState.get_schemas, List.map_append, List.map_cons, List.map_nil,
      List.map_map, THINK_SCHEMA, CREATE_TOOL_SCHEMA]
    rw [show ((fun s => Schema.name s) ∘ fun kv : String × ToolEntry =>
        Schema.mk kv.2.manifest.name kv.2.manifest.description kv.2.manifest.parameters) =
        fun kv : String × ToolEntry => kv.2.manifest.name from rfl]
    rw [map_manifest_name_eq_keys st.tools hwf.2]
    rfl
  refine ⟨hmap, fun h1 h2 => ?_⟩
  rw [hmap]
  simp only [List.nodup_cons, List.mem_cons]
  refine ⟨?_, h2, hwf.1⟩
  rintro (h3 | h3)
  · exact absurd h3 (by decide)
  · exact h1 h3

theorem get_schemas_builtins_then_tools_witness :
    Reachable RegState.init ∧
    (RegState.init.get_schemas.map Schema.name =
        "think" :: "create_tool" :: RegState.init.tools.map Prod.fst ∧
      ("think" ∉ RegState.init.tools.map Prod.fst →
        "create_tool" ∉ RegState.init.tools.map Prod.fst →
        (RegState.init.get_schemas.map Schema.name).Nodup)) :=
  ⟨Reachable.init, get_schemas_builtins_then_tools RegState.init Reachable.init⟩

/-- The create_tool arguments registering a tool named think. -/
def argsThink : Args :=
  [("tool_name", .str "think"), ("description", .str "d"),
   ("parameters", .dict []), ("code", .str "c")]

/-- C3 (counterexample): a reachable state — reached by one execute of
create_tool registering a tool named think — whose get_schemas names are not
pairwise distinct ("think" appears twice). -/
theorem get_schemas_duplicate_name_counterexample :
    ∃ st2 v, RegState.init.execute envNew "create_tool" argsThink = .ok (st2, v) ∧
      Reachable st2 ∧ ¬ (st2.get_schemas.map Schema.name).Nodup := by
  refine ⟨_, _, rfl,
    Reachable.step RegState.init envNew "create_tool" argsThink _ _ Reachable.init rfl, ?_⟩
  decide

/-! ## Agent loop (main.py)

The backend adapter is abstract: `Provider` supplies `chat` (modelled as an
oracle indexed by the number of backend calls already made this turn — any
actual response sequence is one such oracle), `build_assistant_message`, and
`build_tool_results_message` (a provider returning a single message is the
one-element list, which run_agent_loop appends in order).  Printing, logging
and status publication carry no loop-visible state and are not modelled.
`config.MAX_ITERATIONS` is an environment value defaulting to 20; the loop is
stated for an arbitrary bound. -/

structure ToolCall where
  id : String
  name : String
  arguments : Args

structure ToolResult where
  tool_call_id : String
  name : String
  result : PyVal

structure LLMResponse where
  content : String
  tool_calls : List ToolCall

/-- One `Msg` is one entry of the `messages` history: a neutral system or user
dict, or a provider-native dict of type `M`. -/
inductive Msg (M : Type) where
  | system (content : String)
  | user (content : String)
  | native (m : M)

structure Provider (M : Type) where
  chat : Nat → Except PyError LLMResponse
  build_assistant_message : LLMResponse → M
  build_tool_results_message : List ToolResult → List M

def MAX_ITERATIONS : Nat := 20

/-- `json.dumps(schemas, indent=2)` over the schema snapshot (whitespace elided). -/
def schemasJson (schemas : List Schema) : String :=
  pyJson (.list (schemas.map (fun s =>
    .dict [("name", .str s.name), ("description", s.description),
           ("parameters", s.parameters)])))

/-- The SYSTEM_PROMPT text up to its tool_list placeholder. -/
def SYSTEM_PROMPT_HEAD : String :=
  "You are a capable AI assistant with the ability to create and use tools.\n\n" ++
  "You have two built-in tools:\n" ++
  "- `think` — use this to reason step-by-step before acting. Call it whenever you " ++
  "need to plan, analyze, or work through a problem. This is free and has no side effects.\n" ++
  "- `create_tool` — use this to build new tools on the fly. Tools persist across sessions.\n\n" ++
  "When you need a capability (web requests, file I/O, math, etc.), first check if " ++
  "a tool already exists. If not, use `think` to plan the tool, then `create_tool` to build it.\n\n" ++
  "Guidelines for creating tools:\n" ++
  "- The `code` must define an `execute(**kwargs)` function returning a string.\n" ++
  "- List any pip dependencies in `dependencies`.\n" ++
  "- Keep tools focused — one tool per capability.\n" ++
  "- Handle errors gracefully inside tool code.\n\n" ++
  "Available tools:\n"

/-- build_system_prompt: SYSTEM_PROMPT.format with the live schema snapshot. -/
def build_system_prompt (st : RegState) : String :=
  SYSTEM_PROMPT_HEAD ++ schemasJson st.get_schemas ++ "\n"

/-- The per-response tool-call loop of run_agent_loop: execute each call in
emission order, collecting one ToolResult per call; an uncaught fault from
execute aborts the batch (and the whole turn), keeping the state reached so
far. -/
def execToolCalls (env : CreateEnv) (st : RegState) :
    List ToolCall → RegState × Except PyError (List ToolResult)
  | [] => (st, .ok [])
  | tc :: rest =>
    match st.execute env tc.name tc.arguments with
    | .error e => (st, .error e)
    | .ok (st2, v) =>
      match execToolCalls env st2 rest with
      | (st3, .error e) => (st3, .error e)
      | (st3, .ok results) => (st3, .ok (⟨tc.id, tc.name, v⟩ :: results))

inductive LoopOutcome where
  | done
  | llmError
  | maxIterations
  | raised (e : PyError)
deriving Repr, DecidableEq

structure LoopResult (M : Type) where
  messages : List (Msg M)
  registry : RegState
  outcome : LoopOutcome
  chatCalls : Nat
  trace : List (List (Msg M))

/-- The `for iteration in range(MAX_ITERATIONS)` body of run_agent_loop, with
`fuel` iterations left and `k` backend calls already made this turn; `trace`
records the llm_messages of each backend call, `chatCalls` counts them. -/
def loopIter {M : Type} (prov : Provider M) (env : CreateEnv) :
    Nat → Nat → List (Msg M) → RegState → LoopResult M
  | _, 0, messages, st => ⟨messages, st, .maxIterations, 0, []⟩
  | k, fuel + 1, messages, st =>
    let llm_messages := Msg.system (build_system_prompt st) :: messages
    match prov.chat k with
    | .error _ => ⟨messages, st, .llmError, 1, [llm_messages]⟩
    | .ok resp =>
      let messages1 := messages ++ [Msg.native (prov.build_assistant_message resp)]
      if resp.tool_calls.isEmpty then
        ⟨messages1, st, .done, 1, [llm_messages]⟩
      else
        match execToolCalls env st resp.tool_calls with
        | (stE, .error e) => ⟨messages1, stE, .raised e, 1, [llm_messages]⟩
        | (st2, .ok results) =>
          let messages2 :=
            messages1 ++ (prov.build_tool_results_message results).map Msg.native
          let r := loopIter prov env (k + 1) fuel messages2 st2
          { r with chatCalls := r.chatCalls + 1, trace := llm_messages :: r.trace }

/-- run_agent_loop: append the user message, then iterate up to the bound. -/
def run_agent_loop {M : Type} (user_input : String) (messages : List (Msg M))
    (st : RegState) (prov : Provider M) (env : CreateEnv) (maxIterations : Nat) :
    LoopResult M :=
  loopIter prov env 0 maxIterations (messages ++ [Msg.user user_input]) st

theorem execute_ok_of_ne_create_tool (st : RegState) (env : CreateEnv) (name : String)
    (args : Args) (h : name ≠ "create_tool") :
    ∃ st2 v, st.execute env name args = .ok (st2, v) := by
  unfold RegState.execute
  by_cases ht : name == "think"
  · exact ⟨st, (argGet args "thought").getD (.str ""), by simp [ht]⟩
  · have hc : (name == "create_tool") = false := by simpa using h
    cases hlt : lookupTool st.tools name with
    | none =>
      exact ⟨st, .str ("Error: tool '" ++ name ++ "' not found"),
        by simp [ht, hc, hlt]⟩
    | some entry =>
      cases hfn : entry.module.execFn args with
      | ok v => exact ⟨st, .str (pyStr v), by simp [ht, hc, hlt, hfn]⟩
      | error e =>
        exact ⟨st, .str ("Error executing tool '" ++ name ++ "': " ++ e.str ++
          "\n" ++ tracebackOf e), by simp [ht, hc, hlt, hfn]⟩

theorem execToolCalls_ok (env : CreateEnv) (tcs : List ToolCall) : ∀ (st : RegState),
    (∀ tc ∈ tcs, tc.name ≠ "create_tool") →
    ∃ st3 results, execToolCalls env st tcs = (st3, .ok results) := by
  induction tcs with
  | nil => exact fun st _ => ⟨st, [], rfl⟩
  | cons tc rest ih =>
    intro st h
    obtain ⟨st2, v, hex⟩ :=
      execute_ok_of_ne_create_tool st env tc.name tc.arguments (h tc (by simp))
    obtain ⟨st3, results, hrest⟩ := ih st2 (fun tc2 htc2 => h tc2 (by simp [htc2]))
    exact ⟨st3, ⟨tc.id, tc.name, v⟩ :: results, by simp [execToolCalls, hex, hrest]⟩

theorem execToolCalls_ids (env : CreateEnv) (tcs : List ToolCall) :
    ∀ (st st3 : RegState) (results : List ToolResult),
    execToolCalls env st tcs = (st3, .ok results) →
    results.map ToolResult.tool_call_id = tcs.map ToolCall.id ∧
    results.map ToolResult.name = tcs.map ToolCall.name ∧
    results.length = tcs.length := by
  induction tcs with
  | nil =>
    intro st st3 results h
    simp only [execToolCalls, Prod.mk.injEq, Except.ok.injEq] at h
    simp [← h.2]
  | cons tc rest ih =>
    intro st st3 results h
    simp only [execToolCalls] at h
    cases hex : st.execute env tc.name tc.arguments with
    | error e => simp only [hex] at h; simp at h
    | ok pr =>
      obtain ⟨st2, v⟩ := pr
      simp only [hex] at h
      cases hrest : execToolCalls env st2 rest with
      | mk st3b res2 =>
        cases res2 with
        | error e => simp only [hrest] at h; simp at h
        | ok results2 =>
          simp only [hrest] at h
          simp only [Prod.mk.injEq, Except.ok.injEq] at h
          obtain ⟨rfl, rfl⟩ := h
          obtain ⟨h1, h2, h3⟩ := ih st2 st3b results2 hrest
          simp [h1, h2, h3]

theorem loopIter_chatCalls_le {M : Type} (prov : Provider M) (env : CreateEnv) :
    ∀ (fuel k : Nat) (messages : List (Msg M)) (st : RegState),
    (loopIter prov env k fuel messages st).chatCalls ≤ fuel := by
  intro fuel
  induction fuel with
  | zero => intro k messages st; simp [loopIter]
  | succ fuel ih =>
    intro k messages st
    simp only [loopIter]
    cases prov.chat k with
    | error e => simp
    | ok resp =>
      by_cases hE : resp.tool_calls.isEmpty
      · simp [hE]
      · simp only [hE, Bool.false_eq_true, if_false]
        cases hexec : execToolCalls env st resp.tool_calls with
        | mk stE res =>
          cases res with
          | error e => simp
          | ok results =>
            simpa using ih (k + 1) _ _

theorem loopIter_exhausts {M : Type} (prov : Provider M) (env : CreateEnv) :
    ∀ (fuel k : Nat) (messages : List (Msg M)) (st : RegState),
    (∀ i < fuel, ∃ resp, prov.chat (k + i) = .ok resp ∧ resp.tool_calls ≠ [] ∧
      ∀ tc ∈ resp.tool_calls, tc.name ≠ "create_tool") →
    (loopIter prov env k fuel messages st).outcome = .maxIterations ∧
    (loopIter prov env k fuel messages st).chatCalls = fuel := by
  intro fuel
  induction fuel with
  | zero => intro k messages st h; simp [loopIter]
  | succ fuel ih =>
    intro k messages st h
    obtain ⟨resp, hchat, hne, hnc⟩ := h 0 (by omega)
    rw [Nat.add_zero] at hchat
    obtain ⟨st3, results, hexec⟩ := execToolCalls_ok env resp.tool_calls st hnc
    have hE : resp.tool_calls.isEmpty = false := by
      simpa [List.isEmpty_iff] using hne
    have hrec := ih (k + 1)
      (messages ++ [Msg.native (prov.build_assistant_message resp)] ++
        (prov.build_tool_results_message results).map Msg.native) st3
      (fun i hi => by
        have h2 := h (i + 1) (by omega)
        rw [show k + (i + 1) = k + 1 + i by omega] at h2
        exact h2)
    simp only [loopIter, hchat, hE, Bool.false_eq_true, if_false, hexec]
    exact ⟨by simpa using hrec.1, by simpa using hrec.2⟩

/-- C5: for every single input, the loop issues at most `maxIterations`
backend calls; when every backend call answers with tool calls (none of which
hits the uncaught create_tool dispatch fault), the bound is exhausted and the
loop ends in the soft max-iterations outcome, not an error outcome. -/
theorem agent_loop_iteration_bound {M : Type} (user_input : String)
    (messages : List (Msg M)) (st : RegState) (prov : Provider M) (env : CreateEnv)
    (maxIterations : Nat) :
    (run_agent_loop user_input messages st prov env maxIterations).chatCalls ≤
      maxIterations ∧
    ((∀ k < maxIterations, ∃ resp, prov.chat k = .ok resp ∧ resp.tool_calls ≠ [] ∧
        ∀ tc ∈ resp.tool_calls, tc.name ≠ "create_tool") →
      (run_agent_loop user_input messages st prov env maxIterations).outcome =
          .maxIterations ∧
      (run_agent_loop user_input messages st prov env maxIterations).chatCalls =
          maxIterations) := by
  refine ⟨loopIter_chatCalls_le prov env maxIterations 0 _ st, fun hyp => ?_⟩
  exact loopIter_exhausts prov env maxIterations 0 (messages ++ [Msg.user user_input]) st
    (fun i hi => by simpa using hyp i hi)

/-- C6: every ToolCall of a backend response gets exactly one ToolResult, ids
and names matching pointwise in emission order; and an iteration that received
tool calls appends the assistant message and then all the tool results to the
history before the next backend call is issued (the recursive call receives
the extended history). -/
theorem tool_results_one_per_call {M : Type} (prov : Provider M) (env : CreateEnv) :
    (∀ (st st3 : RegState) (tcs : List ToolCall) (results : List ToolResult),
      execToolCalls env st tcs = (st3, .ok results) →
      results.map ToolResult.tool_call_id = tcs.map ToolCall.id ∧
      results.map ToolResult.name = tcs.map ToolCall.name ∧
      results.length = tcs.length) ∧
    (∀ (k fuel : Nat) (messages : List (Msg M)) (st st2 : RegState)
      (resp : LLMResponse) (results : List ToolResult),
      prov.chat k = .ok resp → resp.tool_calls ≠ [] →
      execToolCalls env st resp.tool_calls = (st2, .ok results) →
      loopIter prov env k (fuel + 1) messages st =
        (let r := loopIter prov env (k + 1) fuel
            (messages ++ [Msg.native (prov.build_assistant_message resp)] ++
              (prov.build_tool_results_message results).map Msg.native) st2
         let tr := Msg.system (build_system_prompt st) :: messages
         { r with chatCalls := r.chatCalls + 1, trace := tr :: r.trace })) := by
  refine ⟨fun st st3 tcs results h => execToolCalls_ids env tcs st st3 results h,
    fun k fuel messages st st2 resp results hchat hne hexec => ?_⟩
  have hE : resp.tool_calls.isEmpty = false := by simpa [List.isEmpty_iff] using hne
  simp only [loopIter, hchat, hE, Bool.false_eq_true, if_false, hexec]

end AgenticLoop
